import Mathlib

/-!
# Verification of `neural_network_preprocessing/neural_network.py`

Shallow embedding of the importance-extraction pipeline of the repository:
a Keras model is embedded as a `List Layer` (the model's `.layers` sequence);
numpy arrays over floats are embedded as lists of rationals; fallible Python
code (list indexing, `np.stack`, attribute access on `None`, `raise`) is
embedded in `Option` / `Except PyError`.

Notes on the embedding:
* `type(layer) is BatchNormalization` / `type(layer) == BatchNormalization`
  is embedded as the Boolean field `Layer.isBatchNorm` (exact-type test).
* Python `is` / `is not` between integers is embedded as `=` / `≠`, following
  the spec's design note that these identity comparisons are to be read as
  ordinary equality (the values exercised here are small CPython-cached ints).
* `layer.get_weights()[0]` is the gamma (scale) vector for a
  `BatchNormalization` layer and the kernel matrix for a dense layer; the sum
  type `NpArray` carries both shapes.
* Training (`compile` / `fit`) is not modelled: the fitted model handed to
  `extract_importance_from_model` is supplied by an oracle function
  (`fineTune`), standing for `get_fine_tuned_model_data`'s returned model.
-/

namespace NNVis

/-- A numpy array as used by this code: either a 1-D vector (a
`BatchNormalization` gamma vector) or a 2-D matrix (a dense-layer kernel). -/
inductive NpArray where
  | vec (v : List ℚ)
  | mat (m : List (List ℚ))
deriving DecidableEq, Repr

/-- The Python exceptions this module can raise. -/
inductive PyError where
  | exception (msg : String)
  | indexError
  | valueError
  | attributeError
deriving DecidableEq, Repr

instance {ε α : Type} [DecidableEq ε] [DecidableEq α] : DecidableEq (Except ε α) := fun x y =>
  match x, y with
  | Except.ok a, Except.ok b =>
      if h : a = b then Decidable.isTrue (by rw [h]) else Decidable.isFalse (by simp [h])
  | Except.error e, Except.error f =>
      if h : e = f then Decidable.isTrue (by rw [h]) else Decidable.isFalse (by simp [h])
  | Except.ok _, Except.error _ => Decidable.isFalse (by simp)
  | Except.error _, Except.ok _ => Decidable.isFalse (by simp)

/-- A Keras layer as observed by this module: its exact-type test against
`BatchNormalization`, its `center` argument, its output width
(`layer.output_shape[1]`), its weights (`gamma` meaningful when
`isBatchNorm`, `kernel` otherwise), and its `trainable` flag. -/
structure Layer where
  isBatchNorm : Bool
  center : Bool
  outputWidth : Nat
  gamma : List ℚ
  kernel : List (List ℚ)
  trainable : Bool
deriving DecidableEq, Repr

/-- Embeds `layer.get_weights()[0]`: gamma for a `BatchNormalization` layer,
the kernel matrix otherwise. -/
def Layer.getWeights0 (l : Layer) : NpArray :=
  if l.isBatchNorm then NpArray.vec l.gamma else NpArray.mat l.kernel

/-- Source line 13: `LOG_SOURCE: str = "NEURAL_NETWORK"`. -/
def LOG_SOURCE : String := "NEURAL_NETWORK"

/-- Embeds `BatchNormalization(center=True, gamma_initializer="ones")` applied to a
tensor of width `w` (line 25): gamma is initialized to a vector of ones;
Keras layers are trainable by default. -/
def mkBatchNorm (w : Nat) : Layer :=
  { isBatchNorm := true, center := true, outputWidth := w,
    gamma := List.replicate w 1, kernel := [], trainable := true }

/-- The body of the loop of `insert_batchnorm_layer` (lines 20-27) for the
iterations with `0 < i < max_layer`: each original layer is prefixed by a
fresh `BatchNormalization` layer whose width is the width of the running
output tensor (`last_output`), and the running width becomes the layer's
output width.  `acc` is the layer sequence of the model built so far. -/
def surgeryLoop (lastWidth : Nat) (acc : List Layer) : List Layer → List Layer
  | [] => acc
  | layer :: rest =>
      surgeryLoop layer.outputWidth (acc ++ [mkBatchNorm lastWidth, layer]) rest

/-- Embeds `insert_batchnorm_layer` (lines 16-28): the layer sequence of the model
returned by `Model(inputs=network_input, outputs=last_output)`.  Iteration
`i = 0` keeps the first layer as entry point; every later iteration inserts a
`BatchNormalization` layer before the original layer. -/
def insert_batchnorm_layer : List Layer → List Layer
  | [] => []
  | l0 :: rest => surgeryLoop l0.outputWidth [l0] rest

/-- The state of a `ProcessedNetwork` object (lines 31-47): `num_classes`
(an `int`, initialized to `-1`), `architecture_data`,
`node_importance_value` (one growing list of captured gamma vectors per
non-input layer), `edge_importance_value` (one `Option`al captured weight
array per non-input layer, `none` standing for Python `None`), and the
`edge_importance_set` flag. -/
structure ProcessedNetwork where
  num_classes : Int
  architecture_data : List Nat
  node_importance_value : List (List (List ℚ))
  edge_importance_value : List (Option NpArray)
  edge_importance_set : Bool
deriving DecidableEq, Repr

/-- The final value of `self.num_classes` after the `__init__` loop: set to
`layer.output_shape[1]` at `i == len(model.layers) - 1`, left at the `-1`
sentinel when the model has no layers. -/
def initNumClasses (model : List Layer) : Int :=
  match model.getLast? with
  | some l => (l.outputWidth : Int)
  | none => -1

/-- Embeds `ProcessedNetwork.__init__` (lines 32-47): the loop appends every layer's
output width to `architecture_data` and, for every `i` with `i is not 0`, one
empty slot to `node_importance_value` and one `None` slot to
`edge_importance_value`. -/
def ProcessedNetwork.init (model : List Layer) : ProcessedNetwork :=
  { num_classes := initNumClasses model
    architecture_data := model.map Layer.outputWidth
    node_importance_value := (model.drop 1).map (fun _ => [])
    edge_importance_value := (model.drop 1).map (fun _ => none)
    edge_importance_set := false }

/-- Python list assignment `xs[i] = a`: `some` of the updated list when
`i` is in bounds, `none` (an `IndexError`) otherwise. -/
def setAt? {α : Type} : List α → Nat → α → Option (List α)
  | [], _, _ => none
  | _ :: xs, 0, a => some (a :: xs)
  | x :: xs, n + 1, a => (setAt? xs n a).map (fun ys => x :: ys)

/-- The first loop of `extract_importance_from_model` (lines 87-91): for each
`BatchNormalization` layer, append its `get_weights()[0]` (its gamma vector)
to `node_importance_value[count]` and increment `count`.  An out-of-range
`count` is an `IndexError` (`none`). -/
def nodeLoop : List Layer → Nat → List (List (List ℚ)) → Option (List (List (List ℚ)))
  | [], _, store => some store
  | layer :: rest, count, store =>
      if layer.isBatchNorm then
        match store[count]? with
        | none => none
        | some slot =>
            match setAt? store count (slot ++ [layer.gamma]) with
            | none => none
            | some store' => nodeLoop rest (count + 1) store'
      else nodeLoop rest count store

/-- The second loop of `extract_importance_from_model` (lines 94-98): for each
`BatchNormalization` layer at index `i`, store
`fine_tuned_model.layers[i + 1].get_weights()[0]` into
`edge_importance_value[count]`.  `allLayers` is the full layer list (needed
for the `layers[i + 1]` lookup); the structural argument is the suffix still
to be traversed, `i` its starting index. -/
def edgeLoop (allLayers : List Layer) :
    List Layer → Nat → Nat → List (Option NpArray) → Option (List (Option NpArray))
  | [], _, _, store => some store
  | layer :: rest, i, count, store =>
      if layer.isBatchNorm then
        match allLayers[i + 1]? with
        | none => none
        | some next =>
            match setAt? store count (some next.getWeights0) with
            | none => none
            | some store' => edgeLoop allLayers rest (i + 1) (count + 1) store'
      else edgeLoop allLayers rest (i + 1) count store

/-- Embeds `extract_importance_from_model` (lines 86-99).  The second loop runs only
when `edge_importance_set` is still false, and then sets the flag.  `none`
models an uncaught `IndexError` (which aborts the whole pipeline run). -/
def extract_importance_from_model (pn : ProcessedNetwork) (fine_tuned_model : List Layer) :
    Option ProcessedNetwork :=
  match nodeLoop fine_tuned_model 0 pn.node_importance_value with
  | none => none
  | some nodeStore =>
      if pn.edge_importance_set then
        some { pn with node_importance_value := nodeStore }
      else
        match edgeLoop fine_tuned_model fine_tuned_model 0 0 pn.edge_importance_value with
        | none => none
        | some edgeStore =>
            some { pn with node_importance_value := nodeStore,
                           edge_importance_value := edgeStore,
                           edge_importance_set := true }

/-- Embeds `self.num_classes is not None` (lines 109-110): `num_classes` is an `int`
field (initialized to `-1`, possibly overwritten by a layer width), never
`None`, so this test is always true. -/
def num_classes_is_not_none : Bool := true

/-- The condition of the `raise` in `generate_importance_for_data`
(lines 109-110): `(len(train_data) is not self.num_classes and self.num_classes
is not None) or (len(test_data) is not self.num_classes and self.num_classes is
not None)`. -/
def dataMismatch (nc : Int) (trainLen testLen : Nat) : Bool :=
  (decide ((trainLen : Int) ≠ nc) && num_classes_is_not_none) ||
    (decide ((testLen : Int) ≠ nc) && num_classes_is_not_none)

/-- Embeds `"[%s] Data does not match number of classes %i." % (LOG_SOURCE,
self.num_classes)` (line 111). -/
def mismatchMsg (nc : Int) : String :=
  "[" ++ LOG_SOURCE ++ "] Data does not match number of classes " ++ toString nc ++ "."

/-- The per-class loop of `generate_importance_for_data` (lines 113-115):
`for class_test_data, class_train_data in zip(test_data, train_data)`, fine-
tune on `(class_train_data, class_test_data)` and extract importance from the
fitted model.  `fineTune` is the oracle standing for
`get_fine_tuned_model_data` (training is not modelled). -/
def classLoop {β : Type} (fineTune : β → β → List Layer) :
    ProcessedNetwork → List (β × β) → Option ProcessedNetwork
  | pn, [] => some pn
  | pn, (class_test_data, class_train_data) :: rest =>
      match extract_importance_from_model pn (fineTune class_train_data class_test_data) with
      | none => none
      | some pn' => classLoop fineTune pn' rest

/-- The payload of `np.stack(vs, axis=1)` on a list of equal-length 1-D
arrays: row `r` of the result collects component `r` of each input vector, so
a list of `C` vectors of length `W` becomes a `W × C` matrix. -/
def stackRows (vs : List (List ℚ)) (w : Nat) : List (List ℚ) :=
  (List.range w).map (fun r => vs.map (fun u => u.getD r 0))

/-- Embeds `np.stack(importance_values, axis=1)` (line 119): raises a `ValueError`
when the list is empty or the vectors do not all share one length. -/
def stackAxis1? : List (List ℚ) → Except PyError (List (List ℚ))
  | [] => Except.error PyError.valueError
  | v0 :: rest =>
      if rest.all (fun u => u.length == v0.length) then
        Except.ok (stackRows (v0 :: rest) v0.length)
      else Except.error PyError.valueError

/-- The aggregation loop of `generate_importance_for_data` (lines 117-119):
stack each slot's collected per-class vectors along axis 1, in slot order. -/
def aggregateNodeLoop : List (List (List ℚ)) → Except PyError (List (List (List ℚ)))
  | [] => Except.ok []
  | importance_values :: rest =>
      match stackAxis1? importance_values with
      | Except.error e => Except.error e
      | Except.ok m =>
          match aggregateNodeLoop rest with
          | Except.error e => Except.error e
          | Except.ok ms => Except.ok (m :: ms)

/-- Embeds `generate_importance_for_data` (lines 101-123).  The mismatch check runs
before the per-class loop; the loop runs `extract_importance_from_model` once
per zipped (test, train) class pair; node importance is then stacked per slot
and edge importance passed through unchanged.  The returned triple also
carries the final `ProcessedNetwork` state (in Python, the mutated `self`). -/
def generate_importance_for_data {β : Type} (pn : ProcessedNetwork)
    (train_data test_data : List β) (fineTune : β → β → List Layer) :
    Except PyError (ProcessedNetwork × List (List (List ℚ)) × List (Option NpArray)) :=
  if dataMismatch pn.num_classes train_data.length test_data.length then
    Except.error (PyError.exception (mismatchMsg pn.num_classes))
  else
    match classLoop fineTune pn (test_data.zip train_data) with
    | none => Except.error PyError.indexError
    | some pn' =>
        match aggregateNodeLoop pn'.node_importance_value with
        | Except.error e => Except.error e
        | Except.ok result_node_importance =>
            Except.ok (pn', result_node_importance, pn'.edge_importance_value)

/-- Embeds `np.absolute(layer_importance)` on a 2-D array (line 136). -/
def matAbs (m : List (List ℚ)) : List (List ℚ) :=
  m.map (fun row => row.map (fun v => |v|))

/-- The body of the min/max scan (lines 139-142): `if min_importance >
node_class_importance: min_importance = node_class_importance` and likewise
for the max. -/
def minMaxStep (mm : ℚ × ℚ) (v : ℚ) : ℚ × ℚ :=
  (if mm.1 > v then v else mm.1, if mm.2 < v then v else mm.2)

/-- The two inner loops of lines 137-142, scanning every entry of one layer's
absolute importance matrix. -/
def layerMinMax (mm : ℚ × ℚ) (m : List (List ℚ)) : ℚ × ℚ :=
  m.foldl (fun acc row => row.foldl minMaxStep acc) mm

/-- One iteration of the first normalization loop of `store_importance_data`
(lines 135-143): take the absolute value of the layer matrix, scan it for the
running min/max, and append it to `normalized_node_importance_data`. -/
def storeNodeLoop (acc : (ℚ × ℚ) × List (List (List ℚ))) (layer_importance : List (List ℚ)) :
    (ℚ × ℚ) × List (List (List ℚ)) :=
  let normalized_layer_importance := matAbs layer_importance
  (layerMinMax acc.1 normalized_layer_importance, acc.2 ++ [normalized_layer_importance])

/-- The edge-normalization body (lines 150-157) on one captured array: on a
matrix, each row is replaced by its absolute values divided by their sum; on a
1-D array the same index loop divides each `|x|` by itself. -/
def normalizeEdgeEntry : NpArray → NpArray
  | NpArray.mat m =>
      NpArray.mat (m.map (fun row =>
        let absolute_layer_data := row.map (fun v => |v|)
        let edge_sum := absolute_layer_data.sum
        absolute_layer_data.map (fun v => v / edge_sum)))
  | NpArray.vec v => NpArray.vec (v.map (fun x => |x| / |x|))

/-- The edge-normalization loop of `store_importance_data` (lines 149-157):
a `None` slot raises (`layer_data.shape` on `None` is an `AttributeError`). -/
def normalizeEdgeData : List (Option NpArray) → Except PyError (List NpArray)
  | [] => Except.ok []
  | e :: rest =>
      match e with
      | none => Except.error PyError.attributeError
      | some a =>
          match normalizeEdgeData rest with
          | Except.error err => Except.error err
          | Except.ok ns => Except.ok (normalizeEdgeEntry a :: ns)

/-- The observable outcome of `store_importance_data`: the pair written by
`np.savez(data_path, (node_importance_data, edge_importance_data))`
(line 162), the min/max pair printed on line 147 (`none` when `normalize` is
false), and — for reference — the final value of the local variable
`normalized_edge_importance_data`, which the source computes (lines 149-157)
but never writes anywhere. -/
structure StoreResult where
  savedNode : List (List (List ℚ))
  savedEdge : List (Option NpArray)
  loggedMinMax : Option (ℚ × ℚ)
  normalized_edge_importance_data : Option (List NpArray)
deriving DecidableEq, Repr

/-- Embeds `store_importance_data` (lines 125-162).  In the `normalize` branch the
node data is replaced by its absolute values divided by `max_importance`
(line 145-146), while `normalized_edge_importance_data` is computed but the
saved pair still holds the original `edge_importance_data` (line 162). -/
def store_importance_data {β : Type} (pn : ProcessedNetwork)
    (train_data test_data : List β) (fineTune : β → β → List Layer)
    (normalize : Bool) : Except PyError StoreResult :=
  match generate_importance_for_data pn train_data test_data fineTune with
  | Except.error e => Except.error e
  | Except.ok (_, node_importance_data, edge_importance_data) =>
      if normalize then
        let pass := node_importance_data.foldl storeNodeLoop ((0, 0), [])
        let min_importance := pass.1.1
        let max_importance := pass.1.2
        let normalized_node_importance_data :=
          pass.2.map (fun m => m.map (fun row => row.map (fun v => v / max_importance)))
        match normalizeEdgeData edge_importance_data with
        | Except.error e => Except.error e
        | Except.ok nedata =>
            Except.ok { savedNode := normalized_node_importance_data,
                        savedEdge := edge_importance_data,
                        loggedMinMax := some (min_importance, max_importance),
                        normalized_edge_importance_data := some nedata }
      else
        Except.ok { savedNode := node_importance_data,
                    savedEdge := edge_importance_data,
                    loggedMinMax := none,
                    normalized_edge_importance_data := none }

/-- The freezing step of `get_fine_tuned_model_data` (lines 68-71) on one
layer: `layer.trainable = False`, then `True` again when its type is
`BatchNormalization`. -/
def freezeStep (layer : Layer) : Layer :=
  let layer := { layer with trainable := false }
  if layer.isBatchNorm then { layer with trainable := true } else layer

/-- The layer sequence of `modified_model` in `get_fine_tuned_model_data`
right after the freezing loop (lines 65-71): the surgically modified model
with every layer frozen except `BatchNormalization` layers.  `compile` and
`fit` (lines 75-83) change neither the layer sequence nor the `trainable`
flags, only weight values, which stay abstract here. -/
def get_fine_tuned_model_layers (model : List Layer) : List Layer :=
  (insert_batchnorm_layer model).map freezeStep

/-! ## Concrete fixture: a two-layer model, two classes -/

/-- A dense (non-BatchNormalization) layer of output width `w` with kernel
matrix `k`. -/
def denseLayer (w : Nat) (k : List (List ℚ)) : Layer :=
  { isBatchNorm := false, center := false, outputWidth := w,
    gamma := [], kernel := k, trainable := true }

/-- A two-layer pretrained model: entry layer of width 2, then a dense layer
of width 2 with kernel `[[1, 3], [2, 2]]`; the inferred class count is 2. -/
def exModel : List Layer :=
  [denseLayer 2 [], denseLayer 2 [[1, 3], [2, 2]]]

def pnEx0 : ProcessedNetwork := ProcessedNetwork.init exModel

/-- The surgically modified `exModel` (also standing for its fitted version:
fitting only changes weight values, which this fixture keeps at their
initial ones). -/
def fittedEx : List Layer := insert_batchnorm_layer exModel

/-- Fine-tune oracle for the fixture: every class's fine-tune returns the
modified model. -/
def exFineTune : Unit → Unit → List Layer := fun _ _ => fittedEx

def exTrain : List Unit := [(), ()]

def exTest : List Unit := [(), ()]

/-- State of the `ProcessedNetwork` after the first extraction on the fixture. -/
def pnEx1 : ProcessedNetwork :=
  (extract_importance_from_model pnEx0 fittedEx).getD pnEx0

/-- State of the `ProcessedNetwork` after the second extraction on the fixture. -/
def pnEx2 : ProcessedNetwork :=
  (extract_importance_from_model pnEx1 fittedEx).getD pnEx1

def exGen : Except PyError (ProcessedNetwork × List (List (List ℚ)) × List (Option NpArray)) :=
  generate_importance_for_data pnEx0 exTrain exTest exFineTune

def exGenTriple : ProcessedNetwork × List (List (List ℚ)) × List (Option NpArray) :=
  exGen.toOption.getD (pnEx0, [], [])

def pnExFinal : ProcessedNetwork := exGenTriple.1

def exNodeMats : List (List (List ℚ)) := exGenTriple.2.1

def exEdgeMats : List (Option NpArray) := exGenTriple.2.2

/-- The aggregated node-importance data of the fixture run. -/
def exNodeData : List (List (List ℚ)) := [[[1, 1], [1, 1]]]

/-! ## Definitions taken from the wording of the spec (for comparison) -/

/-- Modelled from the spec's words for the Model Surgeon / claim C6: after the
unchanged entry layer, every original layer is immediately preceded by one
newly constructed `BatchNormalization` layer whose width is the running
output width. -/
def specInterleave (w : Nat) : List Layer → List Layer
  | [] => []
  | layer :: rest => mkBatchNorm w :: layer :: specInterleave layer.outputWidth rest

/-- The absolute values of all node-importance entries across all layers and
classes, in traversal order. -/
def absEntries (d : List (List (List ℚ))) : List ℚ :=
  (d.flatten.flatten).map (fun v => |v|)

/-- Modelled from the spec's words: the global minimum of the absolute value
of every node-importance entry across all layers and classes. -/
def specGlobalMinAbs (d : List (List (List ℚ))) : Option ℚ :=
  (absEntries d).min?

/-! ## List helper lemmas -/

theorem setAt?_length {α : Type} :
    ∀ (l : List α) (i : Nat) (a : α) (l' : List α),
      setAt? l i a = some l' → l'.length = l.length := by
  intro l
  induction l with
  | nil => intro i a l' h; simp [setAt?] at h
  | cons x xs ih =>
    intro i a l' h
    cases i with
    | zero =>
      simp only [setAt?, Option.some.injEq] at h
      subst h; rfl
    | succ n =>
      simp only [setAt?, Option.map_eq_some'] at h
      obtain ⟨ys, hys, rfl⟩ := h
      simp [ih n a ys hys]

theorem setAt?_eq_some_of_lt {α : Type} :
    ∀ (l : List α) (i : Nat) (a : α), i < l.length → ∃ l', setAt? l i a = some l' := by
  intro l
  induction l with
  | nil => intro i a h; simp at h
  | cons x xs ih =>
    intro i a h
    cases i with
    | zero => exact ⟨a :: xs, rfl⟩
    | succ n =>
      obtain ⟨ys, hys⟩ := ih n a (by simpa using h)
      exact ⟨x :: ys, by simp [setAt?, hys]⟩

/-! ## Lemmas about the extraction loops -/

theorem nodeLoop_length :
    ∀ (m : List Layer) (count : Nat) (store store' : List (List (List ℚ))),
      nodeLoop m count store = some store' → store'.length = store.length := by
  intro m
  induction m with
  | nil =>
    intro count store store' h
    simp only [nodeLoop, Option.some.injEq] at h
    subst h; rfl
  | cons layer rest ih =>
    intro count store store' h
    simp only [nodeLoop] at h
    split at h
    · split at h
      · exact absurd h (by simp)
      · rename_i slot hg
        split at h
        · exact absurd h (by simp)
        · rename_i store1 hs
          rw [ih _ _ _ h, setAt?_length store count _ store1 hs]
    · exact ih _ _ _ h

theorem nodeLoop_isSome :
    ∀ (m : List Layer) (count : Nat) (store : List (List (List ℚ))),
      count + m.countP (fun l => l.isBatchNorm) ≤ store.length →
      ∃ store', nodeLoop m count store = some store' := by
  intro m
  induction m with
  | nil => intro count store _; exact ⟨store, rfl⟩
  | cons layer rest ih =>
    intro count store h
    cases hb : layer.isBatchNorm with
    | false =>
      have hc : (layer :: rest).countP (fun l => l.isBatchNorm) =
          rest.countP (fun l => l.isBatchNorm) := by
        simp [List.countP_cons, hb]
      obtain ⟨store', hstore'⟩ := ih count store (by rw [hc] at h; exact h)
      exact ⟨store', by simpa [nodeLoop, hb] using hstore'⟩
    | true =>
      have hc : (layer :: rest).countP (fun l => l.isBatchNorm) =
          rest.countP (fun l => l.isBatchNorm) + 1 := by
        simp [List.countP_cons, hb]
      rw [hc] at h
      have hlt : count < store.length := by omega
      have hg : store[count]? = some store[count] := List.getElem?_eq_getElem hlt
      obtain ⟨store1, hs⟩ := setAt?_eq_some_of_lt store count (store[count] ++ [layer.gamma]) hlt
      have hlen : store1.length = store.length := setAt?_length _ _ _ _ hs
      obtain ⟨store', hstore'⟩ := ih (count + 1) store1 (by omega)
      refine ⟨store', ?_⟩
      simp only [nodeLoop, hb, if_true, hg, hs]
      exact hstore'

theorem edgeLoop_length (allLayers : List Layer) :
    ∀ (m : List Layer) (i count : Nat) (store store' : List (Option NpArray)),
      edgeLoop allLayers m i count store = some store' → store'.length = store.length := by
  intro m
  induction m with
  | nil =>
    intro i count store store' h
    simp only [edgeLoop, Option.some.injEq] at h
    subst h; rfl
  | cons layer rest ih =>
    intro i count store store' h
    simp only [edgeLoop] at h
    split at h
    · split at h
      · exact absurd h (by simp)
      · rename_i next hg
        split at h
        · exact absurd h (by simp)
        · rename_i store1 hs
          rw [ih _ _ _ _ h, setAt?_length store count _ store1 hs]
    · exact ih _ _ _ _ h

theorem edgeLoop_isSome (allLayers : List Layer)
    (hsucc : ∀ j l, allLayers[j]? = some l → l.isBatchNorm = true → j + 1 < allLayers.length) :
    ∀ (m : List Layer) (i count : Nat) (store : List (Option NpArray)),
      m = allLayers.drop i →
      count + m.countP (fun l => l.isBatchNorm) ≤ store.length →
      ∃ store', edgeLoop allLayers m i count store = some store' := by
  intro m
  induction m with
  | nil => intro i count store _ _; exact ⟨store, rfl⟩
  | cons layer rest ih =>
    intro i count store hdrop h
    have hget : allLayers[i]? = some layer := by
      have : (allLayers.drop i)[0]? = some layer := by rw [← hdrop]; simp
      simpa using this
    have hrest : rest = allLayers.drop (i + 1) := by
      have := congrArg List.tail hdrop
      simpa [List.tail_drop] using this
    cases hb : layer.isBatchNorm with
    | false =>
      have hc : (layer :: rest).countP (fun l => l.isBatchNorm) =
          rest.countP (fun l => l.isBatchNorm) := by
        simp [List.countP_cons, hb]
      obtain ⟨store', hstore'⟩ := ih (i + 1) count store hrest (by rw [hc] at h; exact h)
      exact ⟨store', by simpa [edgeLoop, hb] using hstore'⟩
    | true =>
      have hc : (layer :: rest).countP (fun l => l.isBatchNorm) =
          rest.countP (fun l => l.isBatchNorm) + 1 := by
        simp [List.countP_cons, hb]
      rw [hc] at h
      have hlt1 : i + 1 < allLayers.length := hsucc i layer hget hb
      have hnext : allLayers[i + 1]? = some allLayers[i + 1] := List.getElem?_eq_getElem hlt1
      have hltc : count < store.length := by omega
      obtain ⟨store1, hs⟩ :=
        setAt?_eq_some_of_lt store count (some (allLayers[i + 1]).getWeights0) hltc
      have hlen : store1.length = store.length := setAt?_length _ _ _ _ hs
      obtain ⟨store', hstore'⟩ := ih (i + 1) (count + 1) store1 hrest (by omega)
      refine ⟨store', ?_⟩
      simp only [edgeLoop, hb, if_true, hnext, hs]
      exact hstore'

/-! ## Lemmas about `extract_importance_from_model` and the class loop -/

theorem extract_preserves (pn : ProcessedNetwork) (m : List Layer) (pn' : ProcessedNetwork)
    (h : extract_importance_from_model pn m = some pn') :
    pn'.node_importance_value.length = pn.node_importance_value.length ∧
    pn'.edge_importance_value.length = pn.edge_importance_value.length ∧
    pn'.architecture_data = pn.architecture_data ∧
    pn'.num_classes = pn.num_classes ∧
    pn'.edge_importance_set = true := by
  simp only [extract_importance_from_model] at h
  split at h
  · exact absurd h (by simp)
  · rename_i nodeStore hnode
    split at h
    · rename_i hflag
      simp only [Option.some.injEq] at h
      subst h
      exact ⟨nodeLoop_length _ _ _ _ hnode, rfl, rfl, rfl, hflag⟩
    · split at h
      · exact absurd h (by simp)
      · rename_i edgeStore hedge
        simp only [Option.some.injEq] at h
        subst h
        exact ⟨nodeLoop_length _ _ _ _ hnode, edgeLoop_length _ _ _ _ _ _ hedge, rfl, rfl, rfl⟩

theorem extract_flag_set (pn : ProcessedNetwork) (m : List Layer) (pn' : ProcessedNetwork)
    (hflag : pn.edge_importance_set = true)
    (h : extract_importance_from_model pn m = some pn') :
    pn'.edge_importance_value = pn.edge_importance_value ∧
    pn'.edge_importance_set = true := by
  simp only [extract_importance_from_model] at h
  split at h
  · exact absurd h (by simp)
  · rename_i nodeStore hnode
    rw [hflag] at h
    simp only [if_true, Option.some.injEq] at h
    subst h
    exact ⟨rfl, rfl⟩

theorem classLoop_preserves {β : Type} (fineTune : β → β → List Layer) :
    ∀ (pairs : List (β × β)) (pn pn' : ProcessedNetwork),
      classLoop fineTune pn pairs = some pn' →
      pn'.node_importance_value.length = pn.node_importance_value.length ∧
      pn'.edge_importance_value.length = pn.edge_importance_value.length ∧
      pn'.architecture_data = pn.architecture_data ∧
      pn'.num_classes = pn.num_classes := by
  intro pairs
  induction pairs with
  | nil =>
    intro pn pn' h
    simp only [classLoop, Option.some.injEq] at h
    subst h
    exact ⟨rfl, rfl, rfl, rfl⟩
  | cons p rest ih =>
    intro pn pn' h
    obtain ⟨te, tr⟩ := p
    simp only [classLoop] at h
    split at h
    · exact absurd h (by simp)
    · rename_i pn1 hex
      have h1 := extract_preserves pn _ pn1 hex
      have h2 := ih pn1 pn' h
      exact ⟨h2.1.trans h1.1, h2.2.1.trans h1.2.1, h2.2.2.1.trans h1.2.2.1,
             h2.2.2.2.trans h1.2.2.2.1⟩

/-! ## Lemmas about aggregation -/

theorem aggregateNodeLoop_length :
    ∀ (l ms : List (List (List ℚ))), aggregateNodeLoop l = Except.ok ms → ms.length = l.length := by
  intro l
  induction l with
  | nil =>
    intro ms h
    simp only [aggregateNodeLoop, Except.ok.injEq] at h
    subst h; rfl
  | cons vs rest ih =>
    intro ms h
    simp only [aggregateNodeLoop] at h
    split at h
    · exact absurd h (by simp)
    · rename_i m hm
      split at h
      · exact absurd h (by simp)
      · rename_i ms1 hms1
        simp only [Except.ok.injEq] at h
        subst h
        simp [ih ms1 hms1]

theorem aggregateNodeLoop_getElem? :
    ∀ (l ms : List (List (List ℚ))), aggregateNodeLoop l = Except.ok ms →
      ∀ (i : Nat) (vs : List (List ℚ)), l[i]? = some vs →
        ∃ m, ms[i]? = some m ∧ stackAxis1? vs = Except.ok m := by
  intro l
  induction l with
  | nil => intro ms _ i vs h; simp at h
  | cons vs0 rest ih =>
    intro ms h i vs hi
    simp only [aggregateNodeLoop] at h
    split at h
    · exact absurd h (by simp)
    · rename_i m hm
      split at h
      · exact absurd h (by simp)
      · rename_i ms1 hms1
        simp only [Except.ok.injEq] at h
        subst h
        cases i with
        | zero =>
          simp only [List.getElem?_cons_zero, Option.some.injEq] at hi
          subst hi
          exact ⟨m, by simp, hm⟩
        | succ n =>
          simp only [List.getElem?_cons_succ] at hi
          obtain ⟨m', hm', hstack⟩ := ih ms1 hms1 n vs hi
          exact ⟨m', by simpa using hm', hstack⟩

/-! ## Inversion lemmas for `generate_importance_for_data` and `store_importance_data` -/

theorem generate_ok_inv {β : Type} (pn : ProcessedNetwork) (train_data test_data : List β)
    (fineTune : β → β → List Layer) (pn' : ProcessedNetwork)
    (nm : List (List (List ℚ))) (em : List (Option NpArray))
    (h : generate_importance_for_data pn train_data test_data fineTune =
      Except.ok (pn', nm, em)) :
    dataMismatch pn.num_classes train_data.length test_data.length = false ∧
    classLoop fineTune pn (test_data.zip train_data) = some pn' ∧
    aggregateNodeLoop pn'.node_importance_value = Except.ok nm ∧
    em = pn'.edge_importance_value := by
  simp only [generate_importance_for_data] at h
  split at h
  · exact absurd h (by simp)
  · rename_i hmm
    split at h
    · exact absurd h (by simp)
    · rename_i pn1 hloop
      split at h
      · exact absurd h (by simp)
      · rename_i nm1 hagg
        simp only [Except.ok.injEq, Prod.mk.injEq] at h
        obtain ⟨rfl, rfl, rfl⟩ := h
        exact ⟨Bool.not_eq_true _ ▸ Bool.of_not_eq_true hmm, hloop, hagg, rfl⟩

theorem generate_mismatch {β : Type} (pn : ProcessedNetwork) (train_data test_data : List β)
    (fineTune : β → β → List Layer)
    (h : dataMismatch pn.num_classes train_data.length test_data.length = true) :
    generate_importance_for_data pn train_data test_data fineTune =
      Except.error (PyError.exception (mismatchMsg pn.num_classes)) := by
  simp [generate_importance_for_data, h]

theorem store_normalize_fields {β : Type} (pn : ProcessedNetwork)
    (train_data test_data : List β) (fineTune : β → β → List Layer)
    (pn' : ProcessedNetwork) (nodeData : List (List (List ℚ))) (edgeData : List (Option NpArray))
    (r : StoreResult)
    (hgen : generate_importance_for_data pn train_data test_data fineTune =
      Except.ok (pn', nodeData, edgeData))
    (hstore : store_importance_data pn train_data test_data fineTune true = Except.ok r) :
    r.savedNode = (nodeData.foldl storeNodeLoop ((0, 0), [])).2.map
        (fun m => m.map (fun row => row.map
          (fun v => v / (nodeData.foldl storeNodeLoop ((0, 0), [])).1.2))) ∧
    r.savedEdge = edgeData ∧
    r.loggedMinMax = some (nodeData.foldl storeNodeLoop ((0, 0), [])).1 := by
  simp only [store_importance_data, hgen, if_true] at hstore
  split at hstore
  · exact absurd hstore (by simp)
  · rename_i nedata hne
    simp only [Except.ok.injEq] at hstore
    subst hstore
    exact ⟨rfl, rfl, rfl⟩

/-! ## Min/max fold lemmas -/

theorem ite_min (a v : ℚ) : (if a > v then v else a) = min a v := by
  rcases le_or_lt a v with h | h
  · rw [if_neg (not_lt.mpr h), min_eq_left h]
  · rw [if_pos h, min_eq_right h.le]

theorem ite_max (a v : ℚ) : (if a < v then v else a) = max a v := by
  rcases le_or_lt v a with h | h
  · rw [if_neg (not_lt.mpr h), max_eq_left h]
  · rw [if_pos h, max_eq_right h.le]

theorem minMaxStep_eq (mm : ℚ × ℚ) (v : ℚ) : minMaxStep mm v = (min mm.1 v, max mm.2 v) := by
  unfold minMaxStep
  rw [ite_min, ite_max]

theorem foldl_minMaxStep (vs : List ℚ) :
    ∀ mm : ℚ × ℚ, vs.foldl minMaxStep mm = (vs.foldl min mm.1, vs.foldl max mm.2) := by
  induction vs with
  | nil => intro mm; rfl
  | cons v rest ih => intro mm; simp [List.foldl_cons, minMaxStep_eq, ih]

theorem layerMinMax_eq (m : List (List ℚ)) :
    ∀ mm : ℚ × ℚ, layerMinMax mm m = (m.flatten.foldl min mm.1, m.flatten.foldl max mm.2) := by
  induction m with
  | nil => intro mm; rfl
  | cons row rest ih =>
    intro mm
    have h1 : layerMinMax mm (row :: rest) = layerMinMax (row.foldl minMaxStep mm) rest := rfl
    rw [h1, ih, foldl_minMaxStep]
    simp [List.foldl_append]

theorem foldl_storeNodeLoop (d : List (List (List ℚ))) :
    ∀ (mm : ℚ × ℚ) (acc : List (List (List ℚ))),
      d.foldl storeNodeLoop (mm, acc) =
        (((d.map matAbs).flatten.flatten.foldl min mm.1,
          (d.map matAbs).flatten.flatten.foldl max mm.2),
         acc ++ d.map matAbs) := by
  induction d with
  | nil => intro mm acc; simp
  | cons layer rest ih =>
    intro mm acc
    have h1 : (layer :: rest).foldl storeNodeLoop (mm, acc) =
        rest.foldl storeNodeLoop (storeNodeLoop (mm, acc) layer) := rfl
    have h2 : storeNodeLoop (mm, acc) layer =
        (layerMinMax mm (matAbs layer), acc ++ [matAbs layer]) := rfl
    rw [h1, h2, ih, layerMinMax_eq]
    simp [List.foldl_append, List.append_assoc]

theorem flatten_map_abs (m : List (List ℚ)) :
    (matAbs m).flatten = m.flatten.map (fun v => |v|) := by
  induction m with
  | nil => rfl
  | cons row rest ih => simp [matAbs, List.flatten_cons, ih]

theorem flatten_matAbs (d : List (List (List ℚ))) :
    (d.map matAbs).flatten.flatten = absEntries d := by
  induction d with
  | nil => rfl
  | cons m rest ih =>
    simp [absEntries, List.flatten_cons, List.flatten_append, List.map_append,
      flatten_map_abs, ih] at ih ⊢

theorem foldl_min_eq_self (vs : List ℚ) :
    ∀ c : ℚ, (∀ v ∈ vs, c ≤ v) → vs.foldl min c = c := by
  induction vs with
  | nil => intro c _; rfl
  | cons v rest ih =>
    intro c h
    have hc : min c v = c := min_eq_left (h v (by simp))
    simp only [List.foldl_cons, hc]
    exact ih c (fun u hu => h u (by simp [hu]))

theorem le_foldl_max (vs : List ℚ) : ∀ c : ℚ, c ≤ vs.foldl max c := by
  induction vs with
  | nil => intro c; simp
  | cons v rest ih => intro c; exact le_trans (le_max_left c v) (ih (max c v))

theorem mem_le_foldl_max (vs : List ℚ) : ∀ (c v : ℚ), v ∈ vs → v ≤ vs.foldl max c := by
  induction vs with
  | nil => intro c v h; simp at h
  | cons u rest ih =>
    intro c v h
    rcases List.mem_cons.mp h with rfl | h'
    · exact le_trans (le_max_right c v) (le_foldl_max rest (max c v))
    · exact ih (max c u) v h'

theorem abs_mem_absEntries (d : List (List (List ℚ))) (m : List (List ℚ)) (row : List ℚ) (v : ℚ)
    (hm : m ∈ d) (hrow : row ∈ m) (hv : v ∈ row) : |v| ∈ absEntries d := by
  simp only [absEntries, List.mem_map]
  refine ⟨v, ?_, rfl⟩
  simp only [List.mem_flatten]
  exact ⟨row, ⟨m, hm, hrow⟩, hv⟩

/-! ## Structure of the surgically modified model -/

theorem surgeryLoop_eq :
    ∀ (rest : List Layer) (w : Nat) (acc : List Layer),
      surgeryLoop w acc rest = acc ++ specInterleave w rest := by
  intro rest
  induction rest with
  | nil => intro w acc; simp [surgeryLoop, specInterleave]
  | cons layer rs ih =>
    intro w acc
    simp [surgeryLoop, specInterleave, ih, List.append_assoc]

theorem insert_batchnorm_eq (l0 : Layer) (rest : List Layer) :
    insert_batchnorm_layer (l0 :: rest) = l0 :: specInterleave l0.outputWidth rest := by
  simp [insert_batchnorm_layer, surgeryLoop_eq]

theorem specInterleave_length :
    ∀ (ls : List Layer) (w : Nat), (specInterleave w ls).length = 2 * ls.length := by
  intro ls
  induction ls with
  | nil => intro w; rfl
  | cons layer rs ih =>
    intro w
    simp only [specInterleave, List.length_cons, ih]
    omega

theorem specInterleave_countP :
    ∀ (ls : List Layer) (w : Nat), (∀ l ∈ ls, l.isBatchNorm = false) →
      (specInterleave w ls).countP (fun l => l.isBatchNorm) = ls.length := by
  intro ls
  induction ls with
  | nil => intro w _; rfl
  | cons layer rs ih =>
    intro w hfree
    have h0 : layer.isBatchNorm = false := hfree layer (by simp)
    simp [specInterleave, List.countP_cons, h0, mkBatchNorm,
      ih layer.outputWidth (fun x hx => hfree x (by simp [hx]))]

theorem specInterleave_succ :
    ∀ (ls : List Layer) (w : Nat), (∀ l ∈ ls, l.isBatchNorm = false) →
      ∀ (j : Nat) (l : Layer), (specInterleave w ls)[j]? = some l → l.isBatchNorm = true →
        j + 1 < (specInterleave w ls).length := by
  intro ls
  induction ls with
  | nil => intro w _ j l h _; simp [specInterleave] at h
  | cons layer rs ih =>
    intro w hfree j l hget hbn
    match j with
    | 0 =>
      rw [specInterleave_length]
      simp only [List.length_cons]
      omega
    | 1 =>
      simp only [specInterleave, List.getElem?_cons_succ, List.getElem?_cons_zero,
        Option.some.injEq] at hget
      subst hget
      exact absurd hbn (by simp [hfree layer (by simp)])
    | Nat.succ (Nat.succ k) =>
      have hrec := ih layer.outputWidth (fun x hx => hfree x (by simp [hx])) k l
        (by simpa [specInterleave] using hget) hbn
      simp only [specInterleave, List.length_cons]
      omega

theorem insert_BN_not_last (l0 : Layer) (rest : List Layer)
    (hfree : ∀ l ∈ l0 :: rest, l.isBatchNorm = false) :
    ∀ (j : Nat) (l : Layer), (insert_batchnorm_layer (l0 :: rest))[j]? = some l →
      l.isBatchNorm = true → j + 1 < (insert_batchnorm_layer (l0 :: rest)).length := by
  rw [insert_batchnorm_eq]
  intro j l hget hbn
  match j with
  | 0 =>
    simp only [List.getElem?_cons_zero, Option.some.injEq] at hget
    subst hget
    exact absurd hbn (by simp [hfree l0 (by simp)])
  | Nat.succ k =>
    simp only [List.getElem?_cons_succ] at hget
    have := specInterleave_succ rest l0.outputWidth
      (fun x hx => hfree x (by simp [hx])) k l hget hbn
    simp only [List.length_cons]
    omega

theorem insert_countP (l0 : Layer) (rest : List Layer)
    (hfree : ∀ l ∈ l0 :: rest, l.isBatchNorm = false) :
    (insert_batchnorm_layer (l0 :: rest)).countP (fun l => l.isBatchNorm) = rest.length := by
  rw [insert_batchnorm_eq]
  simp [List.countP_cons, hfree l0 (by simp),
    specInterleave_countP rest l0.outputWidth (fun x hx => hfree x (by simp [hx]))]

/-! ## Transfer along structural equality of layer lists -/

theorem forall2_getElem? {xs ys : List Layer}
    (h : List.Forall₂ (fun a b => a.isBatchNorm = b.isBatchNorm) xs ys) :
    ∀ i : Nat, (xs[i]?).map Layer.isBatchNorm = (ys[i]?).map Layer.isBatchNorm := by
  induction h with
  | nil => intro i; rfl
  | cons hr htail ih =>
    intro i
    cases i with
    | zero => simpa using hr
    | succ n => simpa using ih n

theorem forall2_countP {xs ys : List Layer}
    (h : List.Forall₂ (fun a b => a.isBatchNorm = b.isBatchNorm) xs ys) :
    xs.countP (fun l => l.isBatchNorm) = ys.countP (fun l => l.isBatchNorm) := by
  induction h with
  | nil => rfl
  | cons hr htail ih => simp [List.countP_cons, hr, ih]

/-! ## Success of extraction -/

theorem extract_isSome (pn : ProcessedNetwork) (fitted : List Layer)
    (hnode : fitted.countP (fun l => l.isBatchNorm) ≤ pn.node_importance_value.length)
    (hedge : fitted.countP (fun l => l.isBatchNorm) ≤ pn.edge_importance_value.length)
    (hsucc : ∀ j l, fitted[j]? = some l → l.isBatchNorm = true → j + 1 < fitted.length) :
    ∃ pn', extract_importance_from_model pn fitted = some pn' := by
  obtain ⟨ns, hns⟩ := nodeLoop_isSome fitted 0 pn.node_importance_value (by simpa using hnode)
  cases hflag : pn.edge_importance_set with
  | true =>
    refine ⟨{ pn with node_importance_value := ns }, ?_⟩
    simp [extract_importance_from_model, hns, hflag]
  | false =>
    obtain ⟨es, hes⟩ := edgeLoop_isSome fitted hsucc fitted 0 0 pn.edge_importance_value
      (by simp) (by simpa using hedge)
    refine ⟨{ pn with node_importance_value := ns, edge_importance_value := es, edge_importance_set := true }, ?_⟩
    simp [extract_importance_from_model, hns, hflag, hes]

/-! ## Claims -/

/-- Claim C2: the `edge_importance_set` flag is `false` at construction and
becomes `true` on the first successful call to
`extract_importance_from_model`; on every call made with the flag already
set, the flag stays `true` and every entry of `edge_importance_value` is left
unchanged (edge capture is idempotent after the first extraction). -/
theorem claim_C2 (model m : List Layer) (pn pn' : ProcessedNetwork) :
    (ProcessedNetwork.init model).edge_importance_set = false ∧
    (pn.edge_importance_set = false → extract_importance_from_model pn m = some pn' →
      pn'.edge_importance_set = true) ∧
    (pn.edge_importance_set = true → extract_importance_from_model pn m = some pn' →
      pn'.edge_importance_set = true ∧
      pn'.edge_importance_value = pn.edge_importance_value) := by
  refine ⟨rfl, ?_, ?_⟩
  · intro _ h
    exact (extract_preserves pn m pn' h).2.2.2.2
  · intro hflag h
    exact ⟨(extract_flag_set pn m pn' hflag h).2, (extract_flag_set pn m pn' hflag h).1⟩

/-- Witness for C2 on the concrete fixture: the flag starts `false`, is set by
the first extraction, and the second extraction changes no edge entry. -/
theorem claim_C2_witness :
    pnEx0.edge_importance_set = false ∧ pnEx1.edge_importance_set = true ∧
    pnEx2.edge_importance_value = pnEx1.edge_importance_value := by
  refine ⟨(claim_C2 exModel fittedEx pnEx0 pnEx1).1, ?_, ?_⟩
  · exact (claim_C2 exModel fittedEx pnEx0 pnEx1).2.1 (by decide) (by decide)
  · exact ((claim_C2 exModel fittedEx pnEx1 pnEx2).2.2 (by decide) (by decide)).2

/-- Claim C6: on a model with at least two layers, `insert_batchnorm_layer`
returns the model whose layer sequence keeps layer 0 as entry point and puts
one freshly constructed `BatchNormalization` layer (exact type, `center`
enabled, gamma initialized to ones) immediately before each remaining
original layer — `specInterleave` is that spec-shaped sequence; it has
`2 * (n - 1)` entries, i.e. exactly `n - 1` inserted normalization layers
when the original layers are not themselves `BatchNormalization` layers.
(The original layer values appear unchanged in the result, and the input
list is not mutated, the embedding being pure.) -/
theorem claim_C6 (l0 l1 : Layer) (rest : List Layer) :
    insert_batchnorm_layer (l0 :: l1 :: rest) =
      l0 :: specInterleave l0.outputWidth (l1 :: rest) ∧
    (∀ (w : Nat) (ls : List Layer), (specInterleave w ls).length = 2 * ls.length) ∧
    (∀ w : Nat, (mkBatchNorm w).isBatchNorm = true ∧ (mkBatchNorm w).center = true ∧
      (mkBatchNorm w).gamma = List.replicate w 1) ∧
    (∀ (w : Nat) (ls : List Layer), (∀ l ∈ ls, l.isBatchNorm = false) →
      (specInterleave w ls).countP (fun l => l.isBatchNorm) = ls.length) :=
  ⟨insert_batchnorm_eq l0 (l1 :: rest), fun w ls => specInterleave_length ls w,
    fun _ => ⟨rfl, rfl, rfl⟩, fun w ls h => specInterleave_countP ls w h⟩

/-- Witness for C6 on the concrete fixture: the two-layer model becomes
entry layer, inserted normalization layer, original second layer, and
exactly one normalization layer is inserted. -/
theorem claim_C6_witness :
    insert_batchnorm_layer exModel =
      [denseLayer 2 [], mkBatchNorm 2, denseLayer 2 [[1, 3], [2, 2]]] ∧
    (specInterleave 2 [denseLayer 2 [[1, 3], [2, 2]]]).countP (fun l => l.isBatchNorm) = 1 := by
  have h := claim_C6 (denseLayer 2 []) (denseLayer 2 [[1, 3], [2, 2]]) []
  constructor
  · rw [show exModel = denseLayer 2 [] :: denseLayer 2 [[1, 3], [2, 2]] :: [] from rfl, h.1]
    rfl
  · exact h.2.2.2 2 [denseLayer 2 [[1, 3], [2, 2]]] (by decide)

/-- Claim C7: after `ProcessedNetwork.__init__` on a model with at least one
layer, both importance stores have one slot per non-input layer
(`n - 1` slots), `architecture_data` lists the per-layer output widths in
layer order, `num_classes` is the last layer's output width, and the store
lengths are preserved by `extract_importance_from_model` and by
`generate_importance_for_data`. -/
theorem claim_C7 (model : List Layer) (hne : model ≠ []) :
    (ProcessedNetwork.init model).node_importance_value.length = model.length - 1 ∧
    (ProcessedNetwork.init model).edge_importance_value.length = model.length - 1 ∧
    (ProcessedNetwork.init model).architecture_data = model.map Layer.outputWidth ∧
    (∃ last, model.getLast? = some last ∧
      (ProcessedNetwork.init model).num_classes = (last.outputWidth : Int)) ∧
    (∀ (pn₁ : ProcessedNetwork) (m : List Layer) (pn₂ : ProcessedNetwork),
      extract_importance_from_model pn₁ m = some pn₂ →
      pn₂.node_importance_value.length = pn₁.node_importance_value.length ∧
      pn₂.edge_importance_value.length = pn₁.edge_importance_value.length) ∧
    (∀ (β : Type) (pn₁ : ProcessedNetwork) (train_data test_data : List β)
      (fineTune : β → β → List Layer) (pn₂ : ProcessedNetwork)
      (nm : List (List (List ℚ))) (em : List (Option NpArray)),
      generate_importance_for_data pn₁ train_data test_data fineTune =
        Except.ok (pn₂, nm, em) →
      pn₂.node_importance_value.length = pn₁.node_importance_value.length ∧
      pn₂.edge_importance_value.length = pn₁.edge_importance_value.length) := by
  refine ⟨?_, ?_, rfl, ?_, ?_, ?_⟩
  · simp [ProcessedNetwork.init]
  · simp [ProcessedNetwork.init]
  · have hsome : model.getLast?.isSome := List.getLast?_isSome.mpr hne
    obtain ⟨last, hl⟩ := Option.isSome_iff_exists.mp hsome
    exact ⟨last, hl, by simp [ProcessedNetwork.init, initNumClasses, hl]⟩
  · intro pn₁ m pn₂ h
    exact ⟨(extract_preserves pn₁ m pn₂ h).1, (extract_preserves pn₁ m pn₂ h).2.1⟩
  · intro β pn₁ train_data test_data fineTune pn₂ nm em h
    obtain ⟨-, hloop, -, -⟩ := generate_ok_inv pn₁ train_data test_data fineTune pn₂ nm em h
    exact ⟨(classLoop_preserves fineTune _ pn₁ pn₂ hloop).1,
      (classLoop_preserves fineTune _ pn₁ pn₂ hloop).2.1⟩

/-- Witness for C7 on the concrete fixture: the two-layer model yields one
slot per store, architecture `[2, 2]`, class count 2, and the lengths
survive an extraction and a full generate run. -/
theorem claim_C7_witness :
    pnEx0.node_importance_value.length = 1 ∧ pnEx0.edge_importance_value.length = 1 ∧
    pnEx0.architecture_data = [2, 2] ∧
    pnEx1.node_importance_value.length = 1 ∧
    pnExFinal.node_importance_value.length = 1 := by
  have h := claim_C7 exModel (by decide)
  have hext := h.2.2.2.2.1 pnEx0 fittedEx pnEx1 (by decide)
  have hgen := h.2.2.2.2.2 Unit pnEx0 exTrain exTest exFineTune pnExFinal exNodeMats exEdgeMats
    (by decide)
  exact ⟨h.1, h.2.1, h.2.2.1, hext.1.trans h.1, hgen.1.trans h.1⟩

/-- Claim C9: after the freezing loop of `get_fine_tuned_model_data`, a layer
of the modified model is trainable exactly when its type is
`BatchNormalization`; all other layers are frozen (the subsequent `compile`
and `fit` calls do not change `trainable` flags). -/
theorem claim_C9 (model : List Layer) (l : Layer)
    (hl : l ∈ get_fine_tuned_model_layers model) :
    l.trainable = true ↔ l.isBatchNorm = true := by
  simp only [get_fine_tuned_model_layers, List.mem_map] at hl
  obtain ⟨x, hx, rfl⟩ := hl
  cases hb : x.isBatchNorm <;> simp [freezeStep, hb]

/-- Witness for C9 on the concrete fixture: the inserted normalization layer
sits at index 1 of the frozen modified model and is trainable. -/
theorem claim_C9_witness :
    (get_fine_tuned_model_layers exModel)[1]? = some (mkBatchNorm 2) ∧
    ((mkBatchNorm 2).trainable = true ↔ (mkBatchNorm 2).isBatchNorm = true) :=
  ⟨by decide, claim_C9 exModel (mkBatchNorm 2) (by decide)⟩

/-- A second loaded model whose own second layer is a `BatchNormalization`
layer (possible in principle for a pretrained artifact). -/
def bnOrigLayer : Layer :=
  { isBatchNorm := true, center := true, outputWidth := 2, gamma := [1, 1], kernel := [],
    trainable := true }

def exModelBN : List Layer := [denseLayer 2 [], bnOrigLayer]

/-- Counterexample to C10 as stated: for the fitted model produced by
`insert_batchnorm_layer` from `exModelBN` (a model whose last layer is
itself a `BatchNormalization` layer), the last layer of the modified model
IS a `BatchNormalization` layer, and `extract_importance_from_model` on the
matching `ProcessedNetwork` overruns the store index (`none` models the
Python `IndexError` at `self.node_importance_value[count]`). -/
theorem claim_C10_counterexample :
    ((insert_batchnorm_layer exModelBN).getLast?.map Layer.isBatchNorm = some true) ∧
    extract_importance_from_model (ProcessedNetwork.init exModelBN)
      (insert_batchnorm_layer exModelBN) = none := by
  decide

/-- Claim C10, amended: provided the original model contains no
`BatchNormalization` layer, for every fitted model with the layer structure
produced by `insert_batchnorm_layer` (fitting changes weights, not
structure) and stores sized to the original layer count minus one, every
index access of `extract_importance_from_model` is in bounds: a
`BatchNormalization` layer is never last (so `layers[i + 1]` exists), the
number of `BatchNormalization` layers equals the number of store slots, and
extraction succeeds. -/
theorem claim_C10 (model fitted : List Layer) (pn : ProcessedNetwork)
    (hfree : ∀ l ∈ model, l.isBatchNorm = false)
    (hfit : List.Forall₂ (fun a b => a.isBatchNorm = b.isBatchNorm) fitted
      (insert_batchnorm_layer model))
    (hnode : pn.node_importance_value.length = model.length - 1)
    (hedge : pn.edge_importance_value.length = model.length - 1) :
    (∀ j l, fitted[j]? = some l → l.isBatchNorm = true → j + 1 < fitted.length) ∧
    fitted.countP (fun l => l.isBatchNorm) = model.length - 1 ∧
    ∃ pn', extract_importance_from_model pn fitted = some pn' := by
  have hlen : fitted.length = (insert_batchnorm_layer model).length := hfit.length_eq
  have hsucc : ∀ j l, fitted[j]? = some l → l.isBatchNorm = true → j + 1 < fitted.length := by
    intro j l hg hb
    have hmap := forall2_getElem? hfit j
    rw [hg] at hmap
    cases hins : (insert_batchnorm_layer model)[j]? with
    | none => rw [hins] at hmap; simp at hmap
    | some l2 =>
      rw [hins] at hmap
      simp only [Option.map_some', Option.some.injEq] at hmap
      have hb2 : l2.isBatchNorm = true := hmap ▸ hb
      cases model with
      | nil => simp [insert_batchnorm_layer] at hins
      | cons l0 rest =>
        have h2 := insert_BN_not_last l0 rest hfree j l2 hins hb2
        omega
  have hcount : fitted.countP (fun l => l.isBatchNorm) = model.length - 1 := by
    rw [forall2_countP hfit]
    cases model with
    | nil => rfl
    | cons l0 rest => simpa using insert_countP l0 rest hfree
  exact ⟨hsucc, hcount,
    extract_isSome pn fitted (le_of_eq (hcount.trans hnode.symm))
      (le_of_eq (hcount.trans hedge.symm)) hsucc⟩

/-- Witness for C10 on the concrete fixture (a BatchNormalization-free
original model): one normalization layer for one slot, and extraction
succeeds. -/
theorem claim_C10_witness :
    fittedEx.countP (fun l => l.isBatchNorm) = 1 ∧
    ∃ pn', extract_importance_from_model pnEx0 fittedEx = some pn' := by
  have h := claim_C10 exModel fittedEx pnEx0 (by decide)
    (List.forall₂_same.mpr (fun x _ => rfl)) (by decide) (by decide)
  exact ⟨h.2.1, h.2.2⟩

/-! ## The data-mismatch check -/

theorem dataMismatch_iff (nc : Int) (tr te : Nat) :
    dataMismatch nc tr te = true ↔ ((tr : Int) ≠ nc ∨ (te : Int) ≠ nc) := by
  simp [dataMismatch, num_classes_is_not_none]

theorem stackAxis1?_error (vs : List (List ℚ)) (e : PyError)
    (h : stackAxis1? vs = Except.error e) : e = PyError.valueError := by
  cases vs with
  | nil =>
    simp only [stackAxis1?, Except.error.injEq] at h
    exact h.symm
  | cons v0 rest =>
    simp only [stackAxis1?] at h
    split at h
    · exact absurd h (by simp)
    · simp only [Except.error.injEq] at h
      exact h.symm

theorem aggregateNodeLoop_error (l : List (List (List ℚ))) (e : PyError)
    (h : aggregateNodeLoop l = Except.error e) : e = PyError.valueError := by
  induction l with
  | nil => simp [aggregateNodeLoop] at h
  | cons vs rest ih =>
    simp only [aggregateNodeLoop] at h
    split at h
    · rename_i e1 he1
      simp only [Except.error.injEq] at h
      exact h ▸ stackAxis1?_error vs e1 he1
    · rename_i m hm
      split at h
      · rename_i e1 he1
        simp only [Except.error.injEq] at h
        exact ih (h ▸ he1)
      · exact absurd h (by simp)

theorem generate_no_exception {β : Type} (pn : ProcessedNetwork)
    (train_data test_data : List β) (fineTune : β → β → List Layer)
    (hmm : dataMismatch pn.num_classes train_data.length test_data.length = false) :
    ∀ msg, generate_importance_for_data pn train_data test_data fineTune ≠
      Except.error (PyError.exception msg) := by
  intro msg h
  simp only [generate_importance_for_data, hmm, Bool.false_eq_true, if_false] at h
  split at h
  · simp at h
  · split at h
    · rename_i e he
      have hv := aggregateNodeLoop_error _ e he
      simp only [Except.error.injEq] at h
      exact PyError.noConfusion (hv.symm.trans h)
    · simp at h

/-- Counterexample to C3 as stated: with `num_classes` at the `-1` sentinel
(the state `__init__` leaves for a model with no layers) and bundles of
length 1, the claim says the mismatch check does not apply, but the code
raises the tagged mismatch exception anyway — the guard
`self.num_classes is not None` never disables the check, because
`num_classes` is an `int` and never `None`. -/
theorem claim_C3_counterexample :
    (ProcessedNetwork.init ([] : List Layer)).num_classes = -1 ∧
    generate_importance_for_data (ProcessedNetwork.init ([] : List Layer)) [()] [()]
      (fun _ _ => ([] : List Layer)) =
      Except.error (PyError.exception
        "[NEURAL_NETWORK] Data does not match number of classes -1.") := by
  exact ⟨rfl, by decide⟩

/-- Claim C3, amended: the mismatch check applies for every value of
`num_classes`, the sentinel `-1` included (the `is not None` guard is
vacuous since `num_classes` is always an `int`): the mismatch condition
holds exactly when the train or test bundle length differs from
`num_classes`; on mismatch the call returns the descriptive exception tagged
with the fixed log-source label, without invoking the fine-tune oracle (the
result is the same for every oracle); when both lengths equal `num_classes`
the function never raises a Python `Exception` (only `IndexError` /
`ValueError` can arise later). -/
theorem claim_C3 (β : Type) (pn : ProcessedNetwork) (train_data test_data : List β)
    (f g : β → β → List Layer) :
    (dataMismatch pn.num_classes train_data.length test_data.length = true ↔
      ((train_data.length : Int) ≠ pn.num_classes ∨
       (test_data.length : Int) ≠ pn.num_classes)) ∧
    (((train_data.length : Int) ≠ pn.num_classes ∨
      (test_data.length : Int) ≠ pn.num_classes) →
      generate_importance_for_data pn train_data test_data f =
        Except.error (PyError.exception (mismatchMsg pn.num_classes)) ∧
      generate_importance_for_data pn train_data test_data f =
        generate_importance_for_data pn train_data test_data g) ∧
    (((train_data.length : Int) = pn.num_classes ∧
      (test_data.length : Int) = pn.num_classes) →
      ∀ msg, generate_importance_for_data pn train_data test_data f ≠
        Except.error (PyError.exception msg)) := by
  refine ⟨dataMismatch_iff _ _ _, ?_, ?_⟩
  · intro h
    have hm : dataMismatch pn.num_classes train_data.length test_data.length = true :=
      (dataMismatch_iff _ _ _).mpr h
    exact ⟨generate_mismatch pn train_data test_data f hm,
      (generate_mismatch pn train_data test_data f hm).trans
        (generate_mismatch pn train_data test_data g hm).symm⟩
  · intro h
    have hm : dataMismatch pn.num_classes train_data.length test_data.length = false := by
      cases hb : dataMismatch pn.num_classes train_data.length test_data.length
      · rfl
      · rcases (dataMismatch_iff _ _ _).mp hb with h1 | h1
        · exact absurd h.1 h1
        · exact absurd h.2 h1
    exact generate_no_exception pn train_data test_data f hm

/-- Witness for C3 on the concrete fixture: one-element bundles against a
2-class network raise the tagged exception, while matching bundles do not
raise the mismatch exception. -/
theorem claim_C3_witness :
    generate_importance_for_data pnEx0 [()] [()] exFineTune =
      Except.error (PyError.exception
        "[NEURAL_NETWORK] Data does not match number of classes 2.") ∧
    generate_importance_for_data pnEx0 exTrain exTest exFineTune ≠
      Except.error (PyError.exception (mismatchMsg 2)) := by
  constructor
  · exact ((claim_C3 Unit pnEx0 [()] [()] exFineTune exFineTune).2.1
      (Or.inl (by decide))).1.trans (by decide)
  · exact (claim_C3 Unit pnEx0 exTrain exTest exFineTune exFineTune).2.2
      ⟨by decide, by decide⟩ (mismatchMsg 2)

/-! ## Normalization claims -/

theorem absEntries_nonneg (d : List (List (List ℚ))) : ∀ v ∈ absEntries d, 0 ≤ v := by
  intro v hv
  obtain ⟨u, -, rfl⟩ := List.mem_map.mp hv
  exact abs_nonneg u

theorem max?_eq_foldl_max (vs : List ℚ) (hne : vs ≠ []) (h0 : ∀ v ∈ vs, 0 ≤ v) :
    vs.max? = some (vs.foldl max 0) := by
  cases vs with
  | nil => exact absurd rfl hne
  | cons v rest =>
    have h1 : (v :: rest).max? = some (rest.foldl max v) := rfl
    have h2 : (v :: rest).foldl max 0 = rest.foldl max v := by
      simp [List.foldl_cons, max_eq_right (h0 v (by simp))]
    rw [h1, h2]

/-- The concrete `StoreResult` of the fixture run with `normalize=True`. -/
def exStoreResult : StoreResult :=
  { savedNode := [[[1, 1], [1, 1]]],
    savedEdge := [some (NpArray.mat [[1, 3], [2, 2]])],
    loggedMinMax := some (0, 1),
    normalized_edge_importance_data := some [NpArray.mat [[1/4, 3/4], [1/2, 1/2]]] }

/-- Evaluation of the fixture store run: the saved pair keeps the raw edge
matrix, the logged pair is `(0, 1)`, and the normalized edge matrix is
computed (only) into the dead local variable. -/
theorem exStore_eval :
    store_importance_data pnEx0 exTrain exTest exFineTune true = Except.ok exStoreResult := by
  have hgen : generate_importance_for_data pnEx0 exTrain exTest exFineTune =
      Except.ok (pnExFinal, exNodeData, exEdgeMats) := by decide
  have hfin : pnExFinal =
      { num_classes := 2, architecture_data := [2, 2],
        node_importance_value := [[[1, 1], [1, 1]]],
        edge_importance_value := [some (NpArray.mat [[1, 3], [2, 2]])],
        edge_importance_set := true } := by decide
  have hedge : exEdgeMats = [some (NpArray.mat [[1, 3], [2, 2]])] := by decide
  rw [hfin, hedge] at hgen
  simp only [store_importance_data, hgen, if_true, exNodeData]
  norm_num [storeNodeLoop, layerMinMax, minMaxStep, matAbs, normalizeEdgeData,
    normalizeEdgeEntry, exStoreResult, StoreResult.mk.injEq, abs_of_nonneg]

/-- Claim C1 evaluated at the failing input: on the fixture run with
`normalize=True`, the edge data in the saved pair is the raw captured kernel
`[[1, 3], [2, 2]]` (its first row has absolute sum 4, not 1), while the
normalized matrix `[[1/4, 3/4], [1/2, 1/2]]` — whose rows do sum to 1 — is
the value of the local `normalized_edge_importance_data`, computed but never
stored: `np.savez` is passed `edge_importance_data`, not the normalized
list. -/
theorem claim_C1_code_bug_eval :
    (store_importance_data pnEx0 exTrain exTest exFineTune true).map (fun r => r.savedEdge) =
      Except.ok [some (NpArray.mat [[1, 3], [2, 2]])] ∧
    (store_importance_data pnEx0 exTrain exTest exFineTune true).map
        (fun r => r.normalized_edge_importance_data) =
      Except.ok (some [NpArray.mat [[1/4, 3/4], [1/2, 1/2]]]) ∧
    (((1 : ℚ) :: [3]).map (fun v => |v|)).sum ≠ 1 ∧
    ([some (NpArray.mat [[1, 3], [2, 2]])] : List (Option NpArray)) ≠
      [some (NpArray.mat [[1/4, 3/4], [1/2, 1/2]])] := by
  refine ⟨?_, ?_, by norm_num, ?_⟩
  · rw [exStore_eval]; rfl
  · rw [exStore_eval]; rfl
  · intro h
    norm_num at h

/-- Claim C4: with `normalize=True`, when the code's `max_importance`
(the fold of `max` over all absolute node-importance entries, started at the
`0.0` initializer) is nonzero, every stored node-importance entry is the
absolute value of the corresponding aggregated entry divided by that global
maximum, the maximum bounds every absolute entry, and every stored entry
lies in `[0, 1]`. -/
theorem claim_C4 (β : Type) (pn : ProcessedNetwork) (train_data test_data : List β)
    (fineTune : β → β → List Layer) (pn' : ProcessedNetwork)
    (nodeData : List (List (List ℚ))) (edgeData : List (Option NpArray)) (r : StoreResult)
    (hgen : generate_importance_for_data pn train_data test_data fineTune =
      Except.ok (pn', nodeData, edgeData))
    (hstore : store_importance_data pn train_data test_data fineTune true = Except.ok r)
    (hmax : (absEntries nodeData).foldl max 0 ≠ 0) :
    r.savedNode = nodeData.map (fun m => m.map (fun row => row.map
      (fun v => |v| / (absEntries nodeData).foldl max 0))) ∧
    (∀ a ∈ absEntries nodeData, a ≤ (absEntries nodeData).foldl max 0) ∧
    (∀ m ∈ r.savedNode, ∀ row ∈ m, ∀ x ∈ row, 0 ≤ x ∧ x ≤ 1) := by
  obtain ⟨hsn, hse, hmm⟩ :=
    store_normalize_fields pn train_data test_data fineTune pn' nodeData edgeData r hgen hstore
  rw [foldl_storeNodeLoop] at hsn
  simp only [flatten_matAbs, List.nil_append] at hsn
  have hmax_pos : 0 < (absEntries nodeData).foldl max 0 :=
    lt_of_le_of_ne (le_foldl_max _ 0) (Ne.symm hmax)
  have heq : r.savedNode = nodeData.map (fun m => m.map (fun row => row.map
      (fun v => |v| / (absEntries nodeData).foldl max 0))) := by
    rw [hsn]
    simp [matAbs, List.map_map, Function.comp_def]
  refine ⟨heq, fun a ha => mem_le_foldl_max _ 0 a ha, ?_⟩
  intro m hm row hrow x hx
  rw [heq] at hm
  obtain ⟨m0, hm0, rfl⟩ := List.mem_map.mp hm
  obtain ⟨row0, hrow0, rfl⟩ := List.mem_map.mp hrow
  obtain ⟨v, hv, rfl⟩ := List.mem_map.mp hx
  constructor
  · exact div_nonneg (abs_nonneg v) hmax_pos.le
  · exact (div_le_one hmax_pos).mpr
      (mem_le_foldl_max _ 0 _ (abs_mem_absEntries nodeData m0 row0 v hm0 hrow0 hv))

/-- Witness for C4 on the concrete fixture: the saved node data equals the
absolute aggregated data divided by the global max (here 1), and all stored
entries lie in `[0, 1]`. -/
theorem claim_C4_witness :
    exStoreResult.savedNode = exNodeData.map (fun m => m.map (fun row => row.map
      (fun v => |v| / (absEntries exNodeData).foldl max 0))) ∧
    (∀ m ∈ exStoreResult.savedNode, ∀ row ∈ m, ∀ x ∈ row, 0 ≤ x ∧ x ≤ 1) := by
  have h := claim_C4 Unit pnEx0 exTrain exTest exFineTune pnExFinal exNodeData exEdgeMats
    exStoreResult (by decide) exStore_eval (by decide)
  exact ⟨h.1, h.2.2⟩

/-- Counterexample to C5 as stated: on the fixture run every node-importance
entry has absolute value 1, so the global minimum of the absolute values is
1, yet the logged min importance is 0 — the `min_importance` tracker starts
at `0.0` and no absolute value can fall below it. -/
theorem claim_C5_counterexample :
    (store_importance_data pnEx0 exTrain exTest exFineTune true).map
        (fun r => r.loggedMinMax) = Except.ok (some (0, 1)) ∧
    generate_importance_for_data pnEx0 exTrain exTest exFineTune =
      Except.ok (pnExFinal, exNodeData, exEdgeMats) ∧
    specGlobalMinAbs exNodeData = some 1 ∧
    (0 : ℚ) ≠ 1 := by
  refine ⟨?_, by decide, by decide, by decide⟩
  rw [exStore_eval]; rfl

/-- Claim C5, amended: with `normalize=True` the pair logged by
`store_importance_data` is the fold of the min/max scan over all absolute
node-importance entries started at `(0.0, 0.0)`; the logged max equals the
global maximum of the absolute values (whenever any entry exists), but the
logged min is always `0.0` — it equals the global minimum of the absolute
values only when that minimum is 0. -/
theorem claim_C5 (β : Type) (pn : ProcessedNetwork) (train_data test_data : List β)
    (fineTune : β → β → List Layer) (pn' : ProcessedNetwork)
    (nodeData : List (List (List ℚ))) (edgeData : List (Option NpArray)) (r : StoreResult)
    (hgen : generate_importance_for_data pn train_data test_data fineTune =
      Except.ok (pn', nodeData, edgeData))
    (hstore : store_importance_data pn train_data test_data fineTune true = Except.ok r) :
    r.loggedMinMax =
      some ((absEntries nodeData).foldl min 0, (absEntries nodeData).foldl max 0) ∧
    (absEntries nodeData).foldl min 0 = 0 ∧
    (absEntries nodeData ≠ [] →
      (absEntries nodeData).max? = some ((absEntries nodeData).foldl max 0)) := by
  obtain ⟨-, -, hmm⟩ :=
    store_normalize_fields pn train_data test_data fineTune pn' nodeData edgeData r hgen hstore
  rw [foldl_storeNodeLoop] at hmm
  simp only [flatten_matAbs] at hmm
  exact ⟨hmm, foldl_min_eq_self _ 0 (absEntries_nonneg nodeData),
    fun hne => max?_eq_foldl_max _ hne (absEntries_nonneg nodeData)⟩

/-- Witness for C5 (amended) on the concrete fixture: the logged pair is
`(0, 1)`, the min component being the constant 0 and the max the greatest
absolute entry. -/
theorem claim_C5_witness :
    exStoreResult.loggedMinMax =
      some ((absEntries exNodeData).foldl min 0, (absEntries exNodeData).foldl max 0) ∧
    (absEntries exNodeData).foldl min 0 = 0 ∧
    (absEntries exNodeData).max? = some ((absEntries exNodeData).foldl max 0) := by
  have h := claim_C5 Unit pnEx0 exTrain exTest exFineTune pnExFinal exNodeData exEdgeMats
    exStoreResult (by decide) exStore_eval
  exact ⟨h.1, h.2.1, h.2.2 (by decide)⟩

/-- Claim C8: on a successful `generate_importance_for_data` run, the
returned node importance is the per-slot stacking of the collected per-class
vectors along a new axis at position 1: a slot holding `C` vectors of length
`W` yields the `W × C` matrix whose entry `(w, c)` is component `w` of the
`c`-th collected vector, so columns follow the order the classes were
processed. -/
theorem claim_C8 (β : Type) (pn : ProcessedNetwork) (train_data test_data : List β)
    (fineTune : β → β → List Layer) (pn' : ProcessedNetwork)
    (nodeMats : List (List (List ℚ))) (edgeMats : List (Option NpArray))
    (hgen : generate_importance_for_data pn train_data test_data fineTune =
      Except.ok (pn', nodeMats, edgeMats)) :
    aggregateNodeLoop pn'.node_importance_value = Except.ok nodeMats ∧
    ∀ (i : Nat) (vs : List (List ℚ)) (W : Nat),
      pn'.node_importance_value[i]? = some vs → vs ≠ [] → (∀ v ∈ vs, v.length = W) →
      nodeMats[i]? = some (stackRows vs W) ∧
      (stackRows vs W).length = W ∧
      (∀ row ∈ stackRows vs W, row.length = vs.length) ∧
      (∀ (w c : Nat), w < W → c < vs.length →
        ((stackRows vs W)[w]?.bind (fun row => row[c]?)) =
          (vs[c]?.bind (fun v => v[w]?))) := by
  obtain ⟨-, -, hagg, -⟩ :=
    generate_ok_inv pn train_data test_data fineTune pn' nodeMats edgeMats hgen
  refine ⟨hagg, ?_⟩
  intro i vs W hi hne hlen
  obtain ⟨m, hm, hstack⟩ := aggregateNodeLoop_getElem? _ _ hagg i vs hi
  have hmeq : m = stackRows vs W := by
    cases vs with
    | nil => exact absurd rfl hne
    | cons v0 rest =>
      have hW : v0.length = W := hlen v0 (by simp)
      have hall : rest.all (fun u => u.length == v0.length) = true := by
        rw [List.all_eq_true]
        intro u hu
        exact beq_iff_eq.mpr ((hlen u (by simp [hu])).trans hW.symm)
      simp only [stackAxis1?, hall, if_true, Except.ok.injEq] at hstack
      rw [← hstack, hW]
  rw [hmeq] at hm
  refine ⟨hm, by simp [stackRows], ?_, ?_⟩
  · intro row hrow
    simp only [stackRows, List.mem_map] at hrow
    obtain ⟨r, -, rfl⟩ := hrow
    simp
  · intro w c hw hc
    have h1 : (stackRows vs W)[w]? = some (vs.map (fun u => u.getD w 0)) := by
      simp [stackRows, List.getElem?_map, List.getElem?_range, hw]
    obtain ⟨v, hv⟩ : ∃ v, vs[c]? = some v := ⟨vs[c], List.getElem?_eq_getElem hc⟩
    have hvmem : v ∈ vs := by
      have h3 := (List.getElem?_eq_getElem hc).symm.trans hv
      simp only [Option.some.injEq] at h3
      exact h3 ▸ List.getElem_mem hc
    have hvW : v.length = W := hlen v hvmem
    have h2 : v[w]? = some (v.getD w 0) := by
      rw [List.getElem?_eq_getElem (show w < v.length by omega)]
      simp [List.getD_eq_getElem?_getD, List.getElem?_eq_getElem (show w < v.length by omega)]
    rw [h1, hv]
    simp only [Option.some_bind]
    rw [List.getElem?_map, hv, h2]
    rfl

/-- Witness for C8 on the concrete fixture: the single slot's two collected
vectors of length 2 stack into the 2 × 2 matrix at position 0 of the result. -/
theorem claim_C8_witness :
    exNodeMats[0]? = some (stackRows [[1, 1], [1, 1]] 2) ∧
    (stackRows [[1, 1], [1, 1]] 2).length = 2 := by
  have h := claim_C8 Unit pnEx0 exTrain exTest exFineTune pnExFinal exNodeMats exEdgeMats
    (by decide)
  have h2 := h.2 0 [[1, 1], [1, 1]] 2 (by decide) (by decide) (by decide)
  exact ⟨h2.1, h2.2.1⟩

end NNVis


